import Mathlib

/-!
Verification of the `no_meeting` / `nomeeting` WebRTC SFU signaling server
(`server/room_manager.py`, `server/media_manager.py`, `server/signal_server.py`).

The Python code is shallowly embedded: each mutating method becomes a pure
function from the explicit server state to the new state, together with the
list of observable events it emits (messages sent on a client's duplex
channel, peer-connection closes, forwarder detachments, ...).  Python dicts
are embedded as insertion-ordered association lists (`dlookup` / `dinsert` /
`derase` below mirror `d[k]`, `d[k] = v`, `del d[k]`).  Collaborator calls
into the media engine (aiortc) are modelled as always succeeding and follow
the standard WebRTC signaling-state transitions; peer-session references held
in room membership maps are modelled by the owning client's id.

The repository contains two iterations of the server: the current one under
`no_meeting/` (namespace `NoMeeting` below) and an older one under
`nomeeting/` (namespace `Nomeeting`).  Both are embedded where they differ.
-/

/-- Insertion-ordered association list lookup: Python `d.get(k)` / `k in d`. -/
def dlookup {α : Type} (m : List (String × α)) (k : String) : Option α :=
  match m with
  | [] => none
  | (k', v) :: rest => if k' = k then some v else dlookup rest k

/-- Python dict assignment `d[k] = v`: update in place if present, else append. -/
def dinsert {α : Type} (m : List (String × α)) (k : String) (v : α) :
    List (String × α) :=
  match m with
  | [] => [(k, v)]
  | (k', v') :: rest =>
    if k' = k then (k, v) :: rest else (k', v') :: dinsert rest k v

/-- Python dict deletion `d.pop(k, _)` / `del d[k]`. -/
def derase {α : Type} (m : List (String × α)) (k : String) : List (String × α) :=
  m.filter (fun p => p.1 ≠ k)

namespace NoMeeting

/-- `no_meeting/server/room_manager.py`: `Room` — name plus membership dict
`{ client_id: Client }`; a peer reference is modelled by the owning client id,
`none` being Python `None`. -/
structure Room where
  name : String
  clients : List (String × Option String)
deriving Repr, DecidableEq

/-- `RoomManager.get_rooms`: the list of room names. -/
def getRooms (rooms : List Room) : List String :=
  rooms.map (fun r => r.name)

/-- `RoomManager.new_room` (`no_meeting` variant): reject the empty name,
reject a name already carried by some room, else append an empty room.
Returns the new room list together with the reply string. -/
def newRoom (rooms : List Room) (name : String) : List Room × String :=
  if name = "" then (rooms, "房间名不能为空！")
  else if rooms.any (fun r => r.name = name) then (rooms, "房间已存在！")
  else (rooms ++ [⟨name, []⟩], "success")

/-- `RoomManager.join` (`no_meeting` variant): find the first room with the
given name (the Python loop `break`s at the first match), insert the
membership entry there. -/
def join (rooms : List Room) (cid roomName : String) (ref : Option String) :
    List Room × String :=
  match rooms with
  | [] => ([], "房间不存在！")
  | r :: rest =>
    if r.name = roomName then
      ({ r with clients := dinsert r.clients cid ref } :: rest, "success")
    else
      let res := join rest cid roomName ref
      (r :: res.1, res.2)

/-- `RoomManager.left`: for each room, for each supplied name, delete the
client's membership when the names match; always reports `"success"`.
The caller supplies the iterable of names (`get_rooms()` when omitted). -/
def left (rooms : List Room) (cid : String) (names : List String) :
    List Room × String :=
  (rooms.map (fun r =>
    if names.contains r.name ∧ (dlookup r.clients cid).isSome then
      { r with clients := derase r.clients cid }
    else r), "success")

/-- Inner loop of `RoomManager.get_neighbors`: walk one room's membership,
skipping the client itself and any id already collected. -/
def addRoomNeighbors (cid : String) (acc : List (String × Option String)) :
    List (String × Option String) → List (String × Option String)
  | [] => acc
  | p :: rest =>
    if p.1 ≠ cid ∧ (dlookup acc p.1).isNone then
      addRoomNeighbors cid (acc ++ [p]) rest
    else
      addRoomNeighbors cid acc rest

/-- Outer loop of `RoomManager.get_neighbors` over all rooms. -/
def getNeighborsAux (cid : String) (acc : List (String × Option String)) :
    List Room → List (String × Option String)
  | [] => acc
  | r :: rest =>
    if (dlookup r.clients cid).isSome then
      getNeighborsAux cid (addRoomNeighbors cid acc r.clients) rest
    else
      getNeighborsAux cid acc rest

/-- `RoomManager.get_neighbors` (`no_meeting` variant): de-duplicated union of
the other members of every room containing the client. -/
def getNeighbors (rooms : List Room) (cid : String) :
    List (String × Option String) :=
  getNeighborsAux cid [] rooms

end NoMeeting

namespace Nomeeting

/-- `nomeeting/server/room_manager.py`: same `Room` record; the `nomeeting`
variant compares whole records (`dataclass` equality) in `new_room`, where
the membership dicts compare order-insensitively. -/
structure Room where
  name : String
  clients : List (String × Option String)
deriving Repr, DecidableEq

/-- Python dict equality (order-insensitive key-value agreement), as used by
the derived `dataclass` `__eq__` of `Room`. -/
def dictEq (a b : List (String × Option String)) : Bool :=
  a.all (fun p => dlookup b p.1 = some p.2) && b.all (fun p => dlookup a p.1 = some p.2)

/-- `dataclass` equality on `Room`: name and membership dict both equal. -/
def roomEq (r s : Room) : Bool :=
  r.name = s.name && dictEq r.clients s.clients

/-- `RoomManager.new_room` (`nomeeting` variant): builds the fresh empty room
first and tests `n_room not in self.rooms` — record equality, not name
equality — before appending. -/
def newRoom (rooms : List Room) (name : String) : List Room × String :=
  if name = "" then (rooms, "房间名不能为空！")
  else
    let nRoom : Room := ⟨name, []⟩
    if rooms.any (fun r => roomEq r nRoom) then (rooms, "房间已存在！")
    else (rooms ++ [nRoom], "success")

/-- `RoomManager.join` (`nomeeting` variant): the loop does not `break`, so
the last room with the given name receives the member; when no room matches,
the local `r` is unbound and the method raises (`none`). -/
def join (rooms : List Room) (cid roomName : String) (ref : Option String) :
    Option (List Room × String) :=
  match rooms with
  | [] => none
  | r :: rest =>
    match join rest cid roomName ref with
    | some (rest', ack) => some (r :: rest', ack)
    | none =>
      if r.name = roomName then
        some ({ r with clients := dinsert r.clients cid ref } :: rest, "success")
      else none

/-- Inner loop of `get_neighbors` (`nomeeting` variant): collects every member
of the room — it does not skip the client itself. -/
def addRoomNeighbors (acc : List (String × Option String)) :
    List (String × Option String) → List (String × Option String)
  | [] => acc
  | p :: rest =>
    if (dlookup acc p.1).isNone then
      addRoomNeighbors (acc ++ [p]) rest
    else
      addRoomNeighbors acc rest

/-- `RoomManager.get_neighbors` (`nomeeting` variant): union of all members of
rooms containing the client, including the client itself. -/
def getNeighborsAux (cid : String) (acc : List (String × Option String)) :
    List Room → List (String × Option String)
  | [] => acc
  | r :: rest =>
    if (dlookup r.clients cid).isSome then
      getNeighborsAux cid (addRoomNeighbors acc r.clients) rest
    else
      getNeighborsAux cid acc rest

/-- `get_neighbors` (`nomeeting` variant) entry point. -/
def getNeighbors (rooms : List Room) (cid : String) :
    List (String × Option String) :=
  getNeighborsAux cid [] rooms

end Nomeeting

/-- SDP payloads: raw client-supplied strings, server-created offers (which
describe the session's currently attached sender tracks), and server-created
answers to a remote description. -/
inductive SDP where
  | raw (s : String)
  | offerOf (tracks : List String)
  | answerTo (d : SDP)
deriving Repr, DecidableEq

/-- The observable WebRTC peer-connection state of one session: signaling
state, connection state, the two descriptions, and the ids of the tracks
attached via `addTrack` (which a server-created offer describes). -/
structure PC where
  signalingState : String
  connectionState : String
  localDescription : Option SDP
  remoteDescription : Option SDP
  localTracks : List String
deriving Repr, DecidableEq

/-- The media engine's `createAnswer`: an answer to the current remote
description (collaborator calls are modelled as succeeding). -/
def createAnswer (pc : PC) : SDP :=
  SDP.answerTo (pc.remoteDescription.getD (SDP.raw ""))

/-- Wire messages sent on a client's duplex channel (the JSON objects of
`signal_server.py` / `media_manager.py` relevant to the claims). -/
inductive JMsg where
  | answer (sdp : Option SDP)
  | joinSuccess (serverWillOffer : Bool)
  | joinFailed (m : String)
  | leftSuccess
  | leftFailed (m : String)
  | trackEnded (trackId : String)
  | offerMsg (clientId : String) (sdp : SDP)
deriving Repr, DecidableEq

/-- Observable side effects: a channel send to a client, a peer-connection
close, the `RoomManager.left` teardown call, a forwarder detachment
(`sender.replaceTrack(None)`, tagged with the sender's current track), and
the setting of a client's `joined_event`. -/
inductive Ev where
  | send (target : String) (m : JMsg)
  | pcClose (cid : String)
  | roomLeft (cid : String)
  | detach (neighbor : String) (track : Option String)
  | markJoined (cid : String)
deriving Repr, DecidableEq

namespace NoMeeting

/-- `no_meeting/server/media_manager.py`: `Client` — the per-client session
bundle (channel handle, peer connection, joined event; the asyncio lock is
irrelevant in the sequential embedding). -/
structure Sess where
  ws : String
  pc : PC
  joined : Bool
deriving Repr, DecidableEq

/-- The whole server state: `MediaManager.clients`, `client_tracks` (the
track registry as lists of track ids), `forwarded_tracks` (source →
neighbor → senders, a sender being its current track, `none` once
detached), and `RoomManager.rooms`. -/
structure Srv where
  clients : List (String × Sess)
  clientTracks : List (String × List String)
  forwardedTracks : List (String × List (String × List (Option String)))
  rooms : List Room
deriving Repr, DecidableEq

/-- `MediaManager.get_client_by_id`: plain dictionary lookup, implicitly
`None` when absent. -/
def getClientById (s : Srv) (cid : String) : Option Sess :=
  dlookup s.clients cid

/-- `MediaManager.offer` (`no_meeting` variant): error when the client is
unknown; glare guard returning no answer when the signaling state is not
`"stable"`; otherwise apply the remote offer, create and apply the local
answer, and return its SDP. -/
def offer (s : Srv) (cid sdp : String) : Except String (Srv × Option SDP) :=
  match dlookup s.clients cid with
  | none => .error "client 未注册"
  | some sess =>
    if sess.pc.signalingState ≠ "stable" then
      .ok (s, none)
    else
      let pc1 := { sess.pc with
        remoteDescription := some (SDP.raw sdp),
        signalingState := "have-remote-offer" }
      let ans := createAnswer pc1
      let pc2 := { pc1 with
        localDescription := some ans, signalingState := "stable" }
      .ok ({ s with clients := dinsert s.clients cid ({ sess with pc := pc2 }) },
           some ans)

/-- Liveness check used in `remove_client`: the neighbor exists and its
connection is neither closed nor failed. -/
def isLive (s : Srv) (nb : String) : Bool :=
  match dlookup s.clients nb with
  | none => false
  | some c =>
    ¬(c.pc.connectionState = "closed" ∨ c.pc.connectionState = "failed")

/-- One neighbor's notification block in `remove_client`: per sender, a
`track_ended` message on the neighbor's channel when the sender still
carries a track, then the detachment of that sender from the neighbor. -/
def notifySenders (nbWs nbId : String) (senders : List (Option String)) : List Ev :=
  senders.flatMap (fun snd =>
    match snd with
    | some t => [Ev.send nbWs (JMsg.trackEnded t), Ev.detach nbId (some t)]
    | none => [Ev.detach nbId none])

/-- One ledger entry's handling in `remove_client`'s notification loop:
missing or closed/failed neighbors are skipped, live ones notified. -/
def notifyEntry (s : Srv) (p : String × List (Option String)) : List Ev :=
  match dlookup s.clients p.1 with
  | none => []
  | some nc =>
    if nc.pc.connectionState = "closed" ∨ nc.pc.connectionState = "failed" then []
    else notifySenders nc.ws p.1 p.2

/-- The notification loop of `remove_client` over the departing client's
entire source ledger. -/
def removeNotify (s : Srv) (cid : String) : List Ev :=
  ((dlookup s.forwardedTracks cid).getD []).flatMap (notifyEntry s)

/-- `MediaManager.remove_client`: idempotent teardown.  Absent client: no-op.
Otherwise: pop the client's source ledger entries and notify each live
neighbor; purge the client as a forwarding target; close the peer connection
unless already closed; delete the client and its track-registry entry; call
`RoomManager.left` over all rooms. -/
def removeClient (s : Srv) (cid : String) : Srv × List Ev :=
  match dlookup s.clients cid with
  | none => (s, [])
  | some sess =>
    let evNotify := removeNotify s cid
    let fwd1 := derase s.forwardedTracks cid
    let fwd2 := fwd1.map (fun p => (p.1, derase p.2 cid))
    let evClose := if sess.pc.connectionState ≠ "closed" then [Ev.pcClose cid] else []
    let rooms' := (left s.rooms cid (getRooms s.rooms)).1
    ({ clients := derase s.clients cid,
       clientTracks := derase s.clientTracks cid,
       forwardedTracks := fwd2,
       rooms := rooms' },
     evNotify ++ evClose ++ [Ev.roomLeft cid])

/-- `pc.addTrack` on the joining client's session (no-op when the session is
missing, which the caller has already ruled out). -/
def addLocalTrack (s : Srv) (cid t : String) : Srv :=
  match dlookup s.clients cid with
  | none => s
  | some sess =>
    let pc' := { sess.pc with localTracks := sess.pc.localTracks ++ [t] }
    { s with clients := dinsert s.clients cid { sess with pc := pc' } }

/-- Record a forwarder in the ledger under (source, destination), the Python
`setdefault`-and-append pattern. -/
def ledgerAdd (s : Srv) (src dst : String) (snd : Option String) : Srv :=
  let inner := (dlookup s.forwardedTracks src).getD []
  let lst := (dlookup inner dst).getD []
  let fwd' := dinsert s.forwardedTracks src (dinsert inner dst (lst ++ [snd]))
  { s with forwardedTracks := fwd' }

/-- Attach one neighbor's registered tracks to the joining client: relay
subscription (id-preserving), `addTrack`, ledger entry per track. -/
def attachTracks (s : Srv) (cid nId : String) (tracks : List String) : Srv :=
  tracks.foldl (fun st t => ledgerAdd (addLocalTrack st cid t) nId cid (some t)) s

/-- The catch-up loop of `subscribe_existing_tracks` over the neighbor list:
skip the client itself, attach every registered track of each neighbor,
count the attachments. -/
def attachAll (s : Srv) (cid : String) :
    List (String × Option String) → Srv × Nat
  | [] => (s, 0)
  | (nId, _) :: rest =>
    if nId = cid then attachAll s cid rest
    else
      let tracks := (dlookup s.clientTracks nId).getD []
      let res := attachAll (attachTracks s cid nId tracks) cid rest
      (res.1, res.2 + tracks.length)

/-- `MediaManager.subscribe_existing_tracks`: attach all roommate tracks to
the new client; when at least one was attached, create one offer, set it
locally (signaling state becomes `"have-local-offer"`), and send it on the
new client's channel. -/
def subscribeExistingTracks (s : Srv) (cid : String) : Srv × List Ev :=
  match dlookup s.clients cid with
  | none => (s, [])
  | some _ =>
    let nbs := getNeighbors s.rooms cid
    let res := attachAll s cid nbs
    let s1 := res.1
    if 0 < res.2 then
      match dlookup s1.clients cid with
      | none => (s1, [])
      | some sess =>
        let off := SDP.offerOf sess.pc.localTracks
        let pc' := { sess.pc with
          localDescription := some off, signalingState := "have-local-offer" }
        let s2 := { s1 with clients := dinsert s1.clients cid ({ sess with pc := pc' }) }
        (s2, [Ev.send sess.ws (JMsg.offerMsg cid off)])
    else (s1, [])

/-- The `has_existing_tracks` computation of the join handler: some neighbor
other than the client has a non-empty track-registry entry. -/
def hasTracks (s : Srv) (cid : String) (nbs : List (String × Option String)) : Bool :=
  nbs.any (fun p => p.1 ≠ cid ∧ ((dlookup s.clientTracks p.1).getD []) ≠ [])

/-- Marks the client's `joined_event` as set. -/
def setJoined (s : Srv) (cid : String) : Srv :=
  match dlookup s.clients cid with
  | none => s
  | some sess => { s with clients := dinsert s.clients cid ({ sess with joined := true }) }

/-- The `"join"` case of `SignalServer.handle_client`: look up the client
(possibly `None`), `RoomManager.join`, on failure reply `join_failed`; on
success compute `server_will_offer`, send `join_success`, run the catch-up
forwarding, then set the client's `joined_event` — which raises when the
client was never registered (the final `Bool` records that crash). -/
def handleJoin (s : Srv) (ws cid roomName : String) : Srv × List Ev × Bool :=
  let clientOpt := getClientById s cid
  let ref : Option String := if clientOpt.isSome then some cid else none
  let jres := join s.rooms cid roomName ref
  if jres.2 = "success" then
    let s1 := { s with rooms := jres.1 }
    let nbs := getNeighbors s1.rooms cid
    let flag := hasTracks s1 cid nbs
    let sres := subscribeExistingTracks s1 cid
    match clientOpt with
    | none => (sres.1, Ev.send ws (JMsg.joinSuccess flag) :: sres.2, true)
    | some _ =>
      (setJoined sres.1 cid,
       Ev.send ws (JMsg.joinSuccess flag) :: sres.2 ++ [Ev.markJoined cid], false)
  else
    (s, [Ev.send ws (JMsg.joinFailed jres.2)], false)

/-- Python iteration over the wire string `msg["room_name"]`: its characters,
each a one-character string. -/
def strChars (r : String) : List String :=
  r.toList.map (fun c => String.mk [c])

/-- The `"left"` case of `SignalServer.handle_client`: passes the wire string
directly to `RoomManager.left`, whose loop iterates it as an iterable of
names — i.e. over its characters; replies `left_success` on `"success"`. -/
def handleLeft (s : Srv) (ws cid roomName : String) : Srv × List Ev :=
  let lres := left s.rooms cid (strChars roomName)
  if lres.2 = "success" then
    ({ s with rooms := lres.1 }, [Ev.send ws JMsg.leftSuccess])
  else
    ({ s with rooms := lres.1 }, [Ev.send ws (JMsg.leftFailed lres.2)])

/-- The `"offer"` case of `SignalServer.handle_client`: call
`MediaManager.offer` and send the `answer` message unconditionally with
whatever SDP (possibly null) was produced; an exception propagates. -/
def handleOffer (s : Srv) (ws cid sdp : String) : Except String (Srv × List Ev) :=
  match offer s cid sdp with
  | .error e => .error e
  | .ok (s', ans) => .ok (s', [Ev.send ws (JMsg.answer ans)])

end NoMeeting

namespace Nomeeting

/-- `nomeeting` clients: channel and peer connection (no joined event). -/
structure Sess where
  ws : String
  pc : PC
deriving Repr, DecidableEq

/-- `MediaManager.offer` (`nomeeting` variant): no glare guard — the remote
offer is applied and an answer produced regardless of the signaling state. -/
def offer (clients : List (String × Sess)) (cid sdp : String) :
    Except String (List (String × Sess) × Option SDP) :=
  match dlookup clients cid with
  | none => .error "client 未注册"
  | some sess =>
    let pc1 := { sess.pc with
      remoteDescription := some (SDP.raw sdp),
      signalingState := "have-remote-offer" }
    let ans := createAnswer pc1
    let pc2 := { pc1 with
      localDescription := some ans, signalingState := "stable" }
    .ok (dinsert clients cid ({ sess with pc := pc2 }), some ans)

end Nomeeting

/-- Offer messages sent on a channel (used to state the join-time claims). -/
def isOfferEv : Ev → Bool
  | Ev.send _ (JMsg.offerMsg _ _) => true
  | _ => false

/-- The track id of a `track_ended` message sent on channel `w` (used to
state the teardown claim). -/
def trackEndedPayload (w : String) : Ev → Option String
  | Ev.send w' (JMsg.trackEnded t) => if w' = w then some t else none
  | _ => none

/-- The sender state of a detachment on neighbor `n` (used to state the
teardown claim). -/
def detachPayload (n : String) : Ev → Option (Option String)
  | Ev.detach n' tr => if n' = n then some tr else none
  | _ => none

namespace NoMeeting

/-- The tracks the catch-up loop of `subscribe_existing_tracks` attaches:
every registered track of every neighbor other than the client, in loop
order. -/
def catchupTracks (tracks : List (String × List String)) (cid : String)
    (nbs : List (String × Option String)) : List String :=
  nbs.flatMap (fun p => if p.1 = cid then [] else (dlookup tracks p.1).getD [])

end NoMeeting

theorem dlookup_derase {α : Type} (m : List (String × α)) (k : String) :
    dlookup (derase m k) k = none := by
  induction m with
  | nil => rfl
  | cons p rest ih =>
    by_cases h : p.1 = k
    · simpa [derase, List.filter, h] using ih
    · simpa [derase, List.filter, h, dlookup] using ih

theorem dlookup_dinsert {α : Type} (m : List (String × α)) (k : String) (v : α) :
    dlookup (dinsert m k v) k = some v := by
  induction m with
  | nil => simp [dinsert, dlookup]
  | cons p rest ih =>
    by_cases h : p.1 = k
    · simp [dinsert, h, dlookup]
    · cases p with
      | mk k' v' => simp_all [dinsert, dlookup]

theorem dlookup_dinsert_ne {α : Type} (m : List (String × α)) (k k' : String)
    (v : α) (h : k ≠ k') : dlookup (dinsert m k v) k' = dlookup m k' := by
  induction m with
  | nil => simp [dinsert, dlookup, h]
  | cons p rest ih =>
    by_cases hp : p.1 = k
    · cases p with
      | mk a b =>
        subst hp
        simp [dinsert, dlookup, h]
    · cases p with
      | mk a b => simp_all [dinsert, dlookup]

theorem dlookup_cons_eq {α : Type} {k : String} (p : String × α)
    (rest : List (String × α)) (h : p.1 = k) :
    dlookup (p :: rest) k = some p.2 := by
  obtain ⟨a, b⟩ := p
  subst h
  simp [dlookup]

theorem dlookup_cons_ne {α : Type} {k : String} (p : String × α)
    (rest : List (String × α)) (h : p.1 ≠ k) :
    dlookup (p :: rest) k = dlookup rest k := by
  obtain ⟨a, b⟩ := p
  simp only [dlookup]
  rw [if_neg h]

theorem dlookup_append_some {α : Type} {a : List (String × α)} {k : String}
    {v : α} (b : List (String × α)) (h : dlookup a k = some v) :
    dlookup (a ++ b) k = some v := by
  induction a with
  | nil => simp [dlookup] at h
  | cons p rest ih =>
    by_cases hp : p.1 = k
    · simp_all [dlookup]
    · simp_all [dlookup]

theorem dlookup_append_none {α : Type} {a : List (String × α)} {k : String}
    (b : List (String × α)) (h : dlookup a k = none) :
    dlookup (a ++ b) k = dlookup b k := by
  induction a with
  | nil => simp
  | cons p rest ih =>
    by_cases hp : p.1 = k
    · simp_all [dlookup]
    · simp_all [dlookup]

namespace NoMeeting

theorem addRoomNeighbors_isSome (cid k : String)
    (ms : List (String × Option String)) :
    ∀ acc, (dlookup (addRoomNeighbors cid acc ms) k).isSome
      ↔ ((dlookup acc k).isSome ∨ (k ≠ cid ∧ (dlookup ms k).isSome)) := by
  induction ms with
  | nil => intro acc; simp [addRoomNeighbors, dlookup]
  | cons p rest ih =>
    intro acc
    by_cases hc : p.1 ≠ cid ∧ (dlookup acc p.1).isNone
    · rw [addRoomNeighbors, if_pos hc, ih]
      by_cases hk : p.1 = k
      · have hn : dlookup acc k = none := by
          rw [← hk]
          cases h : dlookup acc p.1 with
          | none => rfl
          | some v =>
            have := hc.2
            rw [h] at this
            simp at this
        have h1 : dlookup (acc ++ [p]) k = some p.2 := by
          rw [dlookup_append_none _ hn, dlookup_cons_eq _ _ hk]
        have h2 : dlookup (p :: rest) k = some p.2 := dlookup_cons_eq _ _ hk
        have hkc : k ≠ cid := by rw [← hk]; exact hc.1
        rw [h1, h2]
        simp [hn, hkc]
      · have h1 : dlookup (acc ++ [p]) k = dlookup acc k := by
          cases h : dlookup acc k with
          | none => rw [dlookup_append_none _ h, dlookup_cons_ne _ _ hk]; rfl
          | some v => exact dlookup_append_some _ h
        rw [h1, dlookup_cons_ne _ _ hk]
    · rw [addRoomNeighbors, if_neg hc, ih]
      by_cases hk : p.1 = k
      · rw [dlookup_cons_eq _ _ hk]
        push_neg at hc
        constructor
        · rintro (h | h)
          · exact Or.inl h
          · exact Or.inr ⟨h.1, by simp⟩
        · rintro (h | ⟨hkc, _⟩)
          · exact Or.inl h
          · by_cases hpc : p.1 = cid
            · exact absurd (hk ▸ hpc) hkc
            · have hsome := hc hpc
              left
              rw [← hk]
              cases hacc : dlookup acc p.1 with
              | none =>
                rw [hacc] at hsome
                simp at hsome
              | some v => simp
      · rw [dlookup_cons_ne _ _ hk]

theorem getNeighborsAux_isSome (cid k : String) (rooms : List Room) :
    ∀ acc, (dlookup (getNeighborsAux cid acc rooms) k).isSome
      ↔ ((dlookup acc k).isSome
          ∨ (k ≠ cid ∧ ∃ r ∈ rooms, (dlookup r.clients cid).isSome
              ∧ (dlookup r.clients k).isSome)) := by
  induction rooms with
  | nil => intro acc; simp [getNeighborsAux]
  | cons r rest ih =>
    intro acc
    by_cases hc : (dlookup r.clients cid).isSome
    · rw [getNeighborsAux, if_pos hc, ih, addRoomNeighbors_isSome]
      simp only [List.mem_cons]
      constructor
      · rintro ((h | h) | h)
        · exact Or.inl h
        · exact Or.inr ⟨h.1, r, Or.inl rfl, hc, h.2⟩
        · obtain ⟨hk, r', hr', h1, h2⟩ := h
          exact Or.inr ⟨hk, r', Or.inr hr', h1, h2⟩
      · rintro (h | ⟨hk, r', (rfl | hr'), h1, h2⟩)
        · exact Or.inl (Or.inl h)
        · exact Or.inl (Or.inr ⟨hk, h2⟩)
        · exact Or.inr ⟨hk, r', hr', h1, h2⟩
    · rw [getNeighborsAux, if_neg hc, ih]
      simp only [List.mem_cons]
      constructor
      · rintro (h | ⟨hk, r', hr', h1, h2⟩)
        · exact Or.inl h
        · exact Or.inr ⟨hk, r', Or.inr hr', h1, h2⟩
      · rintro (h | ⟨hk, r', (rfl | hr'), h1, h2⟩)
        · exact Or.inl h
        · exact absurd h1 hc
        · exact Or.inr ⟨hk, r', hr', h1, h2⟩

theorem getNeighborsAux_skip (cid : String) (rooms : List Room)
    (h : ∀ r ∈ rooms, dlookup r.clients cid = none) :
    ∀ acc, getNeighborsAux cid acc rooms = acc := by
  induction rooms with
  | nil => intro acc; rfl
  | cons r rest ih =>
    intro acc
    have hr : dlookup r.clients cid = none := h r (by simp)
    rw [getNeighborsAux, if_neg (by simp [hr])]
    exact ih (fun r' hr' => h r' (by simp [hr'])) acc

end NoMeeting

/-- C8: `no_meeting`'s `RoomManager.get_neighbors` returns exactly the
de-duplicated union, over all rooms containing the client, of those rooms'
members other than the client (in particular the client is never a key),
and the empty mapping when the client is in no room.  (Amended from the
original claim: the `nomeeting` iteration's `get_neighbors` does not exclude
the client itself — see the counterexample.) -/
theorem noMeeting_getNeighbors_spec (rooms : List NoMeeting.Room) (cid d : String) :
    ((dlookup (NoMeeting.getNeighbors rooms cid) d).isSome
      ↔ (d ≠ cid ∧ ∃ r ∈ rooms, (dlookup r.clients cid).isSome
          ∧ (dlookup r.clients d).isSome))
    ∧ ((∀ r ∈ rooms, dlookup r.clients cid = none) →
        NoMeeting.getNeighbors rooms cid = []) := by
  constructor
  · rw [NoMeeting.getNeighbors, NoMeeting.getNeighborsAux_isSome]
    simp [dlookup]
  · intro h
    exact NoMeeting.getNeighborsAux_skip cid rooms h []

/-- C8 (witness): on a concrete state, `b` is a neighbor of `a`, and a client
in no room has no neighbors. -/
theorem noMeeting_getNeighbors_spec_witness :
    (dlookup (NoMeeting.getNeighbors
        [⟨"r", [("a", some "a"), ("b", some "b")]⟩] "a") "b").isSome
    ∧ NoMeeting.getNeighbors [⟨"r", [("c", some "c")]⟩] "a" = [] := by
  constructor
  · exact (noMeeting_getNeighbors_spec
      [⟨"r", [("a", some "a"), ("b", some "b")]⟩] "a" "b").1.mpr
      ⟨by decide, ⟨"r", [("a", some "a"), ("b", some "b")]⟩, by simp,
        by decide, by decide⟩
  · exact (noMeeting_getNeighbors_spec [⟨"r", [("c", some "c")]⟩] "a" "b").2
      (by intro r hr; simp at hr; subst hr; decide)

/-- C8 (counterexample): in the `nomeeting` variant, `get_neighbors("a")` on
a room containing `a` returns a mapping with `a` itself as a key, refuting
"C is never a key of the returned mapping" for that cited code. -/
theorem nomeeting_getNeighbors_self_key :
    Nomeeting.getNeighbors [⟨"r", [("a", some "a"), ("b", some "b")]⟩] "a"
      = [("a", some "a"), ("b", some "b")]
    ∧ (dlookup (Nomeeting.getNeighbors
        [⟨"r", [("a", some "a"), ("b", some "b")]⟩] "a") "a").isSome = true := by
  constructor
  · rfl
  · rfl

/-- C7: `no_meeting`'s `RoomManager.new_room` enforces room-name uniqueness:
an empty name is rejected, a name carried by any existing room — regardless
of membership — is rejected with already-exists and nothing is inserted,
otherwise an empty room is appended; hence two successive `new_room(n)`
calls leave exactly one room named `n`.  (Amended from the original claim:
the `nomeeting` iteration's `new_room` compares whole room records, so there
a room with members does not block a duplicate name — see the
counterexample.) -/
theorem noMeeting_newRoom_unique (rooms : List NoMeeting.Room) (n : String) :
    (n = "" → NoMeeting.newRoom rooms n = (rooms, "房间名不能为空！"))
    ∧ (n ≠ "" → (∃ r ∈ rooms, r.name = n) →
        NoMeeting.newRoom rooms n = (rooms, "房间已存在！"))
    ∧ (n ≠ "" → (∀ r ∈ rooms, r.name ≠ n) →
        NoMeeting.newRoom rooms n = (rooms ++ [⟨n, []⟩], "success"))
    ∧ (n ≠ "" → (∀ r ∈ rooms, r.name ≠ n) →
        (NoMeeting.getRooms
          (NoMeeting.newRoom (NoMeeting.newRoom rooms n).1 n).1).count n = 1) := by
  refine ⟨fun h => by simp [NoMeeting.newRoom, h], fun hn hex => ?_, fun hn hall => ?_,
    fun hn hall => ?_⟩
  · have hany : rooms.any (fun r => r.name = n) = true := by
      rw [List.any_eq_true]
      obtain ⟨r, hr, he⟩ := hex
      exact ⟨r, hr, by simp [he]⟩
    simp [NoMeeting.newRoom, hn, hany]
  · have hany : rooms.any (fun r => r.name = n) = false := by
      rw [List.any_eq_false]
      intro r hr
      simp [hall r hr]
    simp [NoMeeting.newRoom, hn, hany]
  · have hany : rooms.any (fun r => r.name = n) = false := by
      rw [List.any_eq_false]
      intro r hr
      simp [hall r hr]
    have h1 : NoMeeting.newRoom rooms n = (rooms ++ [⟨n, []⟩], "success") := by
      simp [NoMeeting.newRoom, hn, hany]
    have hany2 : (rooms ++ [(⟨n, []⟩ : NoMeeting.Room)]).any (fun r => r.name = n) = true := by
      rw [List.any_eq_true]
      exact ⟨⟨n, []⟩, by simp, by simp⟩
    have h2 : NoMeeting.newRoom (rooms ++ [⟨n, []⟩]) n = (rooms ++ [⟨n, []⟩], "房间已存在！") := by
      simp [NoMeeting.newRoom, hn, hany2]
    rw [h1, h2]
    have hnot : n ∉ NoMeeting.getRooms rooms := by
      intro hmem
      rw [NoMeeting.getRooms, List.mem_map] at hmem
      obtain ⟨r, hr, he⟩ := hmem
      exact hall r hr he
    simp [NoMeeting.getRooms, List.count_append]
    rw [NoMeeting.getRooms] at hnot
    exact List.count_eq_zero.mpr hnot

/-- C7 (witness): from the empty state, `new_room("x")` succeeds and a second
call leaves exactly one room named "x". -/
theorem noMeeting_newRoom_unique_witness :
    NoMeeting.newRoom [] "x" = ([⟨"x", []⟩], "success")
    ∧ (NoMeeting.getRooms
        (NoMeeting.newRoom (NoMeeting.newRoom [] "x").1 "x").1).count "x" = 1 := by
  have h := noMeeting_newRoom_unique [] "x"
  exact ⟨by simpa using h.2.2.1 (by decide) (by simp),
         h.2.2.2 (by decide) (by simp)⟩

/-- C7 (counterexample): in the `nomeeting` variant, starting from the
reachable state `new_room("x")`; `join("c1","x")`, the room named "x" has a
member, so the whole-record membership test fails to detect the taken name:
a second `new_room("x")` returns `"success"` and inserts a duplicate room,
leaving two rooms named "x". -/
theorem nomeeting_newRoom_duplicate_name :
    Nomeeting.newRoom [] "x" = ([⟨"x", []⟩], "success")
    ∧ Nomeeting.join [⟨"x", []⟩] "c1" "x" (some "c1")
        = some ([⟨"x", [("c1", some "c1")]⟩], "success")
    ∧ Nomeeting.newRoom [⟨"x", [("c1", some "c1")]⟩] "x"
        = ([⟨"x", [("c1", some "c1")]⟩, ⟨"x", []⟩], "success")
    ∧ (((Nomeeting.newRoom [⟨"x", [("c1", some "c1")]⟩] "x").1.map
          Nomeeting.Room.name).count "x") = 2 := by
  refine ⟨rfl, rfl, rfl, rfl⟩

/-- Shared helper: the glare branch of `no_meeting`'s `MediaManager.offer`
returns no answer and leaves the whole server state untouched. -/
theorem offer_glare_eq (s : NoMeeting.Srv) (cid sdp : String)
    (sess : NoMeeting.Sess) (hc : dlookup s.clients cid = some sess)
    (hg : sess.pc.signalingState ≠ "stable") :
    NoMeeting.offer s cid sdp = .ok (s, none) := by
  rw [NoMeeting.offer, hc]
  simp [hg]

/-- C1: glare guard of `no_meeting`'s `MediaManager.offer` — for a registered
client whose signaling state is not `"stable"`, the offer is ignored: no
answer is produced and the session state (the whole server state, local and
remote descriptions included) is unchanged.  (Amended from the original
claim: the `nomeeting` iteration's `offer` has no glare guard — see the
counterexample.) -/
theorem noMeeting_offer_glare_guard (s : NoMeeting.Srv) (cid sdp : String)
    (sess : NoMeeting.Sess) (hc : dlookup s.clients cid = some sess)
    (hg : sess.pc.signalingState ≠ "stable") :
    NoMeeting.offer s cid sdp = .ok (s, none) :=
  offer_glare_eq s cid sdp sess hc hg

/-- C1 (witness): a concrete registered client in `"have-local-offer"`
signaling state; its offer yields no answer and the state is unchanged. -/
theorem noMeeting_offer_glare_guard_witness :
    dlookup (NoMeeting.Srv.mk
        [("c1", ⟨"w1", ⟨"have-local-offer", "new", none, none, []⟩, true⟩)]
        [] [] []).clients "c1"
      = some ⟨"w1", ⟨"have-local-offer", "new", none, none, []⟩, true⟩
    ∧ NoMeeting.offer (NoMeeting.Srv.mk
        [("c1", ⟨"w1", ⟨"have-local-offer", "new", none, none, []⟩, true⟩)]
        [] [] []) "c1" "osdp"
      = .ok (NoMeeting.Srv.mk
        [("c1", ⟨"w1", ⟨"have-local-offer", "new", none, none, []⟩, true⟩)]
        [] [] [], none) :=
  ⟨rfl, noMeeting_offer_glare_guard _ "c1" "osdp" _ rfl (by decide)⟩

/-- C1 (counterexample): the `nomeeting` iteration's `MediaManager.offer` has
no glare guard: for a registered client in `"have-local-offer"` signaling
state it still applies the remote offer and produces an answer, so the
request is neither ignored nor the session state left unchanged. -/
theorem nomeeting_offer_no_glare_guard :
    (Nomeeting.Sess.mk "w1"
        ⟨"have-local-offer", "new", some (SDP.offerOf ["t1"]), none, ["t1"]⟩).pc.signalingState
      ≠ "stable"
    ∧ Nomeeting.offer
        [("c1", ⟨"w1", ⟨"have-local-offer", "new", some (SDP.offerOf ["t1"]), none, ["t1"]⟩⟩)]
        "c1" "osdp"
      = .ok ([("c1", ⟨"w1", ⟨"stable", "new", some (SDP.answerTo (SDP.raw "osdp")),
              some (SDP.raw "osdp"), ["t1"]⟩⟩)],
             some (SDP.answerTo (SDP.raw "osdp")))
    ∧ [("c1", (⟨"w1", ⟨"stable", "new", some (SDP.answerTo (SDP.raw "osdp")),
          some (SDP.raw "osdp"), ["t1"]⟩⟩ : Nomeeting.Sess))]
      ≠ [("c1", ⟨"w1", ⟨"have-local-offer", "new", some (SDP.offerOf ["t1"]), none, ["t1"]⟩⟩)] :=
  ⟨by decide, rfl, by decide⟩

/-- C4: the `"offer"` case of `SignalServer.handle_client` sends the
`answer` message unconditionally after `MediaManager.offer` returns: when
the glare guard suppressed the answer, an answer message whose `sdp` field
is null is still sent on the channel, and the state is unchanged.  (Amended
from the original claim, which said no answer message is sent in that
case.) -/
theorem noMeeting_handleOffer_glare_sends_null (s : NoMeeting.Srv)
    (ws cid sdp : String) (sess : NoMeeting.Sess)
    (hc : dlookup s.clients cid = some sess)
    (hg : sess.pc.signalingState ≠ "stable") :
    NoMeeting.handleOffer s ws cid sdp = .ok (s, [Ev.send ws (JMsg.answer none)]) := by
  rw [NoMeeting.handleOffer, offer_glare_eq s cid sdp sess hc hg]

/-- C4 (witness): concrete glare state — the handler still emits one
`answer` send whose SDP is null. -/
theorem noMeeting_handleOffer_glare_sends_null_witness :
    dlookup (NoMeeting.Srv.mk
        [("c2", ⟨"w2", ⟨"have-local-offer", "new", none, none, []⟩, false⟩)]
        [] [] []).clients "c2"
      = some ⟨"w2", ⟨"have-local-offer", "new", none, none, []⟩, false⟩
    ∧ NoMeeting.handleOffer (NoMeeting.Srv.mk
        [("c2", ⟨"w2", ⟨"have-local-offer", "new", none, none, []⟩, false⟩)]
        [] [] []) "w2" "c2" "osdp"
      = .ok (NoMeeting.Srv.mk
        [("c2", ⟨"w2", ⟨"have-local-offer", "new", none, none, []⟩, false⟩)]
        [] [] [], [Ev.send "w2" (JMsg.answer none)]) :=
  ⟨rfl, noMeeting_handleOffer_glare_sends_null _ "w2" "c2" "osdp" _ rfl (by decide)⟩

/-- C4 (counterexample): at a glare state, `MediaManager.offer` produces no
answer, yet the handler sends an answer message on the channel — refuting
"no answer message is sent on the channel" as originally claimed. -/
theorem noMeeting_handleOffer_answer_sent_on_glare :
    NoMeeting.offer (NoMeeting.Srv.mk
        [("c3", ⟨"w3", ⟨"have-remote-offer", "new", none, none, []⟩, true⟩)]
        [] [] []) "c3" "osdp"
      = .ok (NoMeeting.Srv.mk
        [("c3", ⟨"w3", ⟨"have-remote-offer", "new", none, none, []⟩, true⟩)]
        [] [] [], none)
    ∧ NoMeeting.handleOffer (NoMeeting.Srv.mk
        [("c3", ⟨"w3", ⟨"have-remote-offer", "new", none, none, []⟩, true⟩)]
        [] [] []) "w3" "c3" "osdp"
      = .ok (NoMeeting.Srv.mk
        [("c3", ⟨"w3", ⟨"have-remote-offer", "new", none, none, []⟩, true⟩)]
        [] [] [], [Ev.send "w3" (JMsg.answer none)])
    ∧ ([Ev.send "w3" (JMsg.answer none)] : List Ev) ≠ [] :=
  ⟨rfl, rfl, by decide⟩

/-- C9: the `"left"` handler passes the wire string `msg["room_name"]`
directly to `RoomManager.left`, which iterates it as a list of names — for a
string, its characters.  For the two-character room name `"ab"` no character
equals the room's name, so the member is not removed, yet `left_success` is
reported: the code diverges from the claim (and from `left`'s own
`list[str]` annotation). -/
theorem noMeeting_handleLeft_multichar_room :
    NoMeeting.strChars "ab" = ["a", "b"]
    ∧ NoMeeting.handleLeft (NoMeeting.Srv.mk
        [("c1", ⟨"w1", ⟨"stable", "new", none, none, []⟩, true⟩)]
        [] [] [⟨"ab", [("c1", some "c1")]⟩]) "w1" "c1" "ab"
      = (NoMeeting.Srv.mk
          [("c1", ⟨"w1", ⟨"stable", "new", none, none, []⟩, true⟩)]
          [] [] [⟨"ab", [("c1", some "c1")]⟩],
         [Ev.send "w1" JMsg.leftSuccess])
    ∧ dlookup ([(("c1" : String), some "c1")]) "c1" = some (some "c1") :=
  ⟨rfl, rfl, rfl⟩

/-- Shared helper: when some room has the requested name, `no_meeting`'s
`RoomManager.join` reports success and the first such room's membership dict
maps the client to the supplied reference. -/
theorem join_success_mem (cid roomName : String) (ref : Option String) :
    ∀ rooms : List NoMeeting.Room, (∃ r ∈ rooms, r.name = roomName) →
      (NoMeeting.join rooms cid roomName ref).2 = "success"
      ∧ ∃ r ∈ (NoMeeting.join rooms cid roomName ref).1,
          r.name = roomName ∧ dlookup r.clients cid = some ref := by
  intro rooms hex
  induction rooms with
  | nil => simp at hex
  | cons r rest ih =>
    by_cases hr : r.name = roomName
    · rw [NoMeeting.join, if_pos hr]
      exact ⟨rfl, ⟨{ r with clients := dinsert r.clients cid ref }, by simp,
        by simpa using hr, dlookup_dinsert _ _ _⟩⟩
    · obtain ⟨r', hm, hn⟩ := hex
      rcases List.mem_cons.mp hm with he | hm'
      · exact absurd (he ▸ hn) hr
      · have hres := ih ⟨r', hm', hn⟩
        rw [NoMeeting.join, if_neg hr]
        obtain ⟨r'', hm'', hp⟩ := hres.2
        exact ⟨hres.1, r'', List.mem_cons_of_mem _ hm'', hp⟩

/-- C10: a `join` message naming an existing room but an unregistered
client id: `get_client_by_id` returns `None`, `RoomManager.join` still
succeeds and records a membership entry mapping the id to `None`, and the
handler then crashes at the `joined_event` access on the missing client —
the join path is only total for registered ids. -/
theorem noMeeting_join_unregistered (s : NoMeeting.Srv) (ws cid roomName : String)
    (hc : dlookup s.clients cid = none)
    (hr : ∃ r ∈ s.rooms, r.name = roomName) :
    NoMeeting.getClientById s cid = none
    ∧ (NoMeeting.join s.rooms cid roomName none).2 = "success"
    ∧ (∃ r ∈ (NoMeeting.handleJoin s ws cid roomName).1.rooms,
        r.name = roomName ∧ dlookup r.clients cid = some none)
    ∧ (NoMeeting.handleJoin s ws cid roomName).2.2 = true := by
  have hjoin := join_success_mem cid roomName none s.rooms hr
  have hgc : NoMeeting.getClientById s cid = none := hc
  have hres : (NoMeeting.handleJoin s ws cid roomName).1.rooms
        = (NoMeeting.join s.rooms cid roomName none).1
      ∧ (NoMeeting.handleJoin s ws cid roomName).2.2 = true := by
    rw [NoMeeting.handleJoin]
    simp only [hgc, Option.isSome_none, Bool.false_eq_true, if_false, reduceIte]
    rw [if_pos hjoin.1]
    simp only [NoMeeting.subscribeExistingTracks]
    have hc' : dlookup
        ({ s with rooms := (NoMeeting.join s.rooms cid roomName none).1 } :
          NoMeeting.Srv).clients cid = none := hc
    rw [hc']
    simp
  exact ⟨hgc, hjoin.1, hres.1 ▸ hjoin.2, hres.2⟩

/-- C10 (witness): concrete state — room "r1" with member "A"; unregistered
id "X" joins: membership records X ↦ None and the handler crashes. -/
theorem noMeeting_join_unregistered_witness :
    NoMeeting.getClientById (NoMeeting.Srv.mk
        [("A", ⟨"wA", ⟨"stable", "new", none, none, []⟩, true⟩)]
        [("A", ["t1"])] [] [⟨"r1", [("A", some "A")]⟩]) "X" = none
    ∧ (NoMeeting.handleJoin (NoMeeting.Srv.mk
        [("A", ⟨"wA", ⟨"stable", "new", none, none, []⟩, true⟩)]
        [("A", ["t1"])] [] [⟨"r1", [("A", some "A")]⟩]) "wX" "X" "r1").2.2 = true := by
  have h := noMeeting_join_unregistered (NoMeeting.Srv.mk
      [("A", ⟨"wA", ⟨"stable", "new", none, none, []⟩, true⟩)]
      [("A", ["t1"])] [] [⟨"r1", [("A", some "A")]⟩]) "wX" "X" "r1"
      rfl ⟨⟨"r1", [("A", some "A")]⟩, by simp, rfl⟩
  exact ⟨h.1, h.2.2.2⟩

/-- Shared helper: every event the notification block emits is a
`track_ended` send or a detachment. -/
theorem notifySenders_mem (ws nid : String) (senders : List (Option String)) :
    ∀ e ∈ NoMeeting.notifySenders ws nid senders,
      (∃ t, e = Ev.send ws (JMsg.trackEnded t)) ∨ (∃ tr, e = Ev.detach nid tr) := by
  intro e he
  rw [NoMeeting.notifySenders, List.mem_flatMap] at he
  obtain ⟨snd, _, he⟩ := he
  cases snd with
  | some t =>
    simp at he
    rcases he with rfl | rfl
    · exact Or.inl ⟨t, rfl⟩
    · exact Or.inr ⟨some t, rfl⟩
  | none =>
    simp at he
    subst he
    exact Or.inr ⟨none, rfl⟩

/-- Shared helper: the whole `remove_client` notification loop emits only
`track_ended` sends and detachments. -/
theorem removeNotify_mem (s : NoMeeting.Srv) (cid : String) :
    ∀ e ∈ NoMeeting.removeNotify s cid,
      (∃ w t, e = Ev.send w (JMsg.trackEnded t)) ∨ (∃ n tr, e = Ev.detach n tr) := by
  intro e he
  rw [NoMeeting.removeNotify, List.mem_flatMap] at he
  obtain ⟨p, _, he⟩ := he
  rw [NoMeeting.notifyEntry] at he
  split at he
  · simp at he
  · rename_i nc _
    split at he
    · simp at he
    · rcases notifySenders_mem _ _ _ e he with ⟨t, rfl⟩ | ⟨tr, rfl⟩
      · exact Or.inl ⟨nc.ws, t, rfl⟩
      · exact Or.inr ⟨p.1, tr, rfl⟩

/-- Shared helper: the one-step equation for `remove_client` on a registered
client. -/
theorem removeClient_eq (s : NoMeeting.Srv) (cid : String)
    (sess : NoMeeting.Sess) (hc : dlookup s.clients cid = some sess) :
    NoMeeting.removeClient s cid
      = ({ clients := derase s.clients cid,
           clientTracks := derase s.clientTracks cid,
           forwardedTracks :=
             (derase s.forwardedTracks cid).map (fun p => (p.1, derase p.2 cid)),
           rooms := (NoMeeting.left s.rooms cid (NoMeeting.getRooms s.rooms)).1 },
         NoMeeting.removeNotify s cid
           ++ (if sess.pc.connectionState ≠ "closed" then [Ev.pcClose cid] else [])
           ++ [Ev.roomLeft cid]) := by
  rw [NoMeeting.removeClient, hc]

/-- C2: `remove_client` is idempotent — for a registered client (whose
session is not already closed), the first call emits exactly one
`RoomManager.left` call and one session close, deletes the client from the
clients map and the track registry, and a second call observes "already
removed": it returns immediately with no events and an unchanged state. -/
theorem noMeeting_removeClient_idempotent (s : NoMeeting.Srv) (cid : String)
    (sess : NoMeeting.Sess) (hc : dlookup s.clients cid = some sess)
    (hcl : sess.pc.connectionState ≠ "closed") :
    ((NoMeeting.removeClient s cid).2.count (Ev.roomLeft cid) = 1)
    ∧ ((NoMeeting.removeClient s cid).2.count (Ev.pcClose cid) = 1)
    ∧ dlookup (NoMeeting.removeClient s cid).1.clients cid = none
    ∧ dlookup (NoMeeting.removeClient s cid).1.clientTracks cid = none
    ∧ NoMeeting.removeClient (NoMeeting.removeClient s cid).1 cid
        = ((NoMeeting.removeClient s cid).1, []) := by
  have heq := removeClient_eq s cid sess hc
  have hn1 : (NoMeeting.removeNotify s cid).count (Ev.roomLeft cid) = 0 := by
    rw [List.count_eq_zero]
    intro hmem
    rcases removeNotify_mem s cid _ hmem with ⟨w, t, he⟩ | ⟨n, tr, he⟩ <;> simp at he
  have hn2 : (NoMeeting.removeNotify s cid).count (Ev.pcClose cid) = 0 := by
    rw [List.count_eq_zero]
    intro hmem
    rcases removeNotify_mem s cid _ hmem with ⟨w, t, he⟩ | ⟨n, tr, he⟩ <;> simp at he
  refine ⟨?_, ?_, ?_, ?_, ?_⟩
  · rw [heq]
    simp [List.count_append, hn1, if_pos hcl, List.count_singleton, List.count_cons]
  · rw [heq]
    simp [List.count_append, hn2, if_pos hcl, List.count_singleton, List.count_cons]
  · rw [heq]
    exact dlookup_derase _ _
  · rw [heq]
    exact dlookup_derase _ _
  · have hgone : dlookup (NoMeeting.removeClient s cid).1.clients cid = none := by
      rw [heq]
      exact dlookup_derase _ _
    rw [NoMeeting.removeClient, hgone]

/-- C2 (witness): concrete registered client with an open session — first
teardown emits one close and one `left`, the second call is a no-op. -/
theorem noMeeting_removeClient_idempotent_witness :
    dlookup (NoMeeting.Srv.mk
        [("A", ⟨"wA", ⟨"stable", "connected", none, none, []⟩, true⟩)]
        [("A", ["t1"])] [("A", [("B", [some "t1"])])]
        [⟨"r1", [("A", some "A")]⟩]).clients "A"
      = some ⟨"wA", ⟨"stable", "connected", none, none, []⟩, true⟩
    ∧ ((NoMeeting.removeClient (NoMeeting.Srv.mk
        [("A", ⟨"wA", ⟨"stable", "connected", none, none, []⟩, true⟩)]
        [("A", ["t1"])] [("A", [("B", [some "t1"])])]
        [⟨"r1", [("A", some "A")]⟩]) "A").2.count (Ev.roomLeft "A") = 1)
    ∧ NoMeeting.removeClient ((NoMeeting.removeClient (NoMeeting.Srv.mk
        [("A", ⟨"wA", ⟨"stable", "connected", none, none, []⟩, true⟩)]
        [("A", ["t1"])] [("A", [("B", [some "t1"])])]
        [⟨"r1", [("A", some "A")]⟩]) "A").1) "A"
      = ((NoMeeting.removeClient (NoMeeting.Srv.mk
        [("A", ⟨"wA", ⟨"stable", "connected", none, none, []⟩, true⟩)]
        [("A", ["t1"])] [("A", [("B", [some "t1"])])]
        [⟨"r1", [("A", some "A")]⟩]) "A").1, []) := by
  have h := noMeeting_removeClient_idempotent (NoMeeting.Srv.mk
      [("A", ⟨"wA", ⟨"stable", "connected", none, none, []⟩, true⟩)]
      [("A", ["t1"])] [("A", [("B", [some "t1"])])]
      [⟨"r1", [("A", some "A")]⟩]) "A"
      ⟨"wA", ⟨"stable", "connected", none, none, []⟩, true⟩ rfl (by decide)
  exact ⟨rfl, h.1, h.2.2.2.2⟩

/-- Shared helper: a successful lookup splits the association list at the
first occurrence of the key. -/
theorem dlookup_split {α : Type} {m : List (String × α)} {k : String} {v : α}
    (h : dlookup m k = some v) :
    ∃ l1 l2, m = l1 ++ (k, v) :: l2 := by
  induction m with
  | nil => simp [dlookup] at h
  | cons p rest ih =>
    obtain ⟨a, b⟩ := p
    by_cases ha : a = k
    · subst ha
      rw [dlookup_cons_eq (a, b) rest rfl] at h
      injection h with hbv
      subst hbv
      exact ⟨[], rest, rfl⟩
    · rw [dlookup_cons_ne (a, b) rest ha] at h
      obtain ⟨l1, l2, he⟩ := ih h
      exact ⟨(a, b) :: l1, l2, by simp [he]⟩

/-- Shared helper: the `track_ended` payloads inside one notification block
are exactly the still-attached tracks of its senders, in order. -/
theorem notifySenders_trackEnded (w n : String) (senders : List (Option String)) :
    (NoMeeting.notifySenders w n senders).filterMap (trackEndedPayload w)
      = senders.filterMap id := by
  induction senders with
  | nil => rfl
  | cons snd rest ih =>
    cases snd with
    | some t =>
      simp only [NoMeeting.notifySenders, List.flatMap_cons] at *
      simp [List.filterMap_append, List.filterMap_cons, trackEndedPayload, ih]
    | none =>
      simp only [NoMeeting.notifySenders, List.flatMap_cons] at *
      simp [List.filterMap_append, List.filterMap_cons, trackEndedPayload, ih]

/-- Shared helper: the detachments inside one notification block are exactly
its senders, in order — every forwarder is detached. -/
theorem notifySenders_detach (w n : String) (senders : List (Option String)) :
    (NoMeeting.notifySenders w n senders).filterMap (detachPayload n) = senders := by
  induction senders with
  | nil => rfl
  | cons snd rest ih =>
    cases snd with
    | some t =>
      simp only [NoMeeting.notifySenders, List.flatMap_cons] at *
      simp [List.filterMap_append, List.filterMap_cons, trackEndedPayload,
        detachPayload, ih]
    | none =>
      simp only [NoMeeting.notifySenders, List.flatMap_cons] at *
      simp [List.filterMap_append, List.filterMap_cons, trackEndedPayload,
        detachPayload, ih]

/-- C3: teardown postcondition of `remove_client` for a registered client:
each live neighbor's notification block — one `track_ended` per still-
attached forwarded track, and a detachment of every forwarder — occurs in
the emitted trace; the ledger retains no entry with the client as source or
target; the client is gone from the clients map and the track registry; and
the client is a member of no room afterwards. -/
theorem noMeeting_removeClient_teardown (s : NoMeeting.Srv) (cid : String)
    (sess : NoMeeting.Sess) (hc : dlookup s.clients cid = some sess) :
    (∀ nb senders nc,
      dlookup ((dlookup s.forwardedTracks cid).getD []) nb = some senders →
      dlookup s.clients nb = some nc →
      nc.pc.connectionState ≠ "closed" → nc.pc.connectionState ≠ "failed" →
      ((NoMeeting.notifySenders nc.ws nb senders) <:+: (NoMeeting.removeClient s cid).2
        ∧ (NoMeeting.notifySenders nc.ws nb senders).filterMap (trackEndedPayload nc.ws)
            = senders.filterMap id
        ∧ (NoMeeting.notifySenders nc.ws nb senders).filterMap (detachPayload nb)
            = senders))
    ∧ (∀ p ∈ (NoMeeting.removeClient s cid).1.forwardedTracks,
        p.1 ≠ cid ∧ dlookup p.2 cid = none)
    ∧ dlookup (NoMeeting.removeClient s cid).1.clients cid = none
    ∧ dlookup (NoMeeting.removeClient s cid).1.clientTracks cid = none
    ∧ (∀ r ∈ (NoMeeting.removeClient s cid).1.rooms, dlookup r.clients cid = none) := by
  have heq := removeClient_eq s cid sess hc
  refine ⟨?_, ?_, ?_, ?_, ?_⟩
  · intro nb senders nc hnb hnc hcl hfl
    refine ⟨?_, notifySenders_trackEnded nc.ws nb senders,
      notifySenders_detach nc.ws nb senders⟩
    obtain ⟨l1, l2, hsplit⟩ := dlookup_split hnb
    have hentry : NoMeeting.notifyEntry s (nb, senders)
        = NoMeeting.notifySenders nc.ws nb senders := by
      rw [NoMeeting.notifyEntry]
      simp only [hnc]
      rw [if_neg (by simp [hcl, hfl])]
    have h1 : NoMeeting.notifySenders nc.ws nb senders <:+: NoMeeting.removeNotify s cid := by
      rw [NoMeeting.removeNotify, hsplit, List.flatMap_append, List.flatMap_cons, hentry,
        ← List.append_assoc]
      exact List.infix_append _ _ _
    rw [heq]
    have h2 : NoMeeting.removeNotify s cid
        <:+: NoMeeting.removeNotify s cid
          ++ (if sess.pc.connectionState ≠ "closed" then [Ev.pcClose cid] else [])
          ++ [Ev.roomLeft cid] := by
      rw [List.append_assoc]
      exact (List.prefix_append _ _).isInfix
    exact h1.trans h2
  · intro p hp
    rw [heq] at hp
    simp only [List.mem_map] at hp
    obtain ⟨q, hq, he⟩ := hp
    rw [derase, List.mem_filter] at hq
    constructor
    · rw [← he]
      simpa using hq.2
    · rw [← he]
      exact dlookup_derase _ _
  · rw [heq]
    exact dlookup_derase _ _
  · rw [heq]
    exact dlookup_derase _ _
  · intro r hr
    rw [heq] at hr
    simp only [NoMeeting.left, List.mem_map] at hr
    obtain ⟨r0, hr0, he⟩ := hr
    by_cases hcond : (NoMeeting.getRooms s.rooms).contains r0.name
        ∧ (dlookup r0.clients cid).isSome
    · rw [if_pos hcond] at he
      rw [← he]
      exact dlookup_derase _ _
    · rw [if_neg hcond] at he
      have hcont : (NoMeeting.getRooms s.rooms).contains r0.name = true := by
        have : r0.name ∈ NoMeeting.getRooms s.rooms := by
          rw [NoMeeting.getRooms, List.mem_map]
          exact ⟨r0, hr0, rfl⟩
        exact List.elem_eq_true_of_mem this
      have hnone : dlookup r0.clients cid = none := by
        rcases hcond' : dlookup r0.clients cid with _ | v
        · rfl
        · exact absurd ⟨hcont, by simp [hcond']⟩ hcond
      rw [← he]
      exact hnone

/-- C3 (witness): concrete teardown of client "A" forwarding to live
neighbor "B" — the notification block occurs in the trace, the ledger,
clients map and room membership are purged. -/
theorem noMeeting_removeClient_teardown_witness :
    ((NoMeeting.notifySenders "wB" "B" [some "t1", none]) <:+:
        (NoMeeting.removeClient (NoMeeting.Srv.mk
          [("A", ⟨"wA", ⟨"stable", "connected", none, none, []⟩, true⟩),
           ("B", ⟨"wB", ⟨"stable", "new", none, none, []⟩, false⟩)]
          [("A", ["t1"])] [("A", [("B", [some "t1", none])])]
          [⟨"r1", [("A", some "A"), ("B", some "B")]⟩]) "A").2)
    ∧ (∀ p ∈ (NoMeeting.removeClient (NoMeeting.Srv.mk
          [("A", ⟨"wA", ⟨"stable", "connected", none, none, []⟩, true⟩),
           ("B", ⟨"wB", ⟨"stable", "new", none, none, []⟩, false⟩)]
          [("A", ["t1"])] [("A", [("B", [some "t1", none])])]
          [⟨"r1", [("A", some "A"), ("B", some "B")]⟩]) "A").1.forwardedTracks,
        p.1 ≠ "A" ∧ dlookup p.2 "A" = none)
    ∧ dlookup (NoMeeting.removeClient (NoMeeting.Srv.mk
          [("A", ⟨"wA", ⟨"stable", "connected", none, none, []⟩, true⟩),
           ("B", ⟨"wB", ⟨"stable", "new", none, none, []⟩, false⟩)]
          [("A", ["t1"])] [("A", [("B", [some "t1", none])])]
          [⟨"r1", [("A", some "A"), ("B", some "B")]⟩]) "A").1.clients "A" = none
    ∧ (∀ r ∈ (NoMeeting.removeClient (NoMeeting.Srv.mk
          [("A", ⟨"wA", ⟨"stable", "connected", none, none, []⟩, true⟩),
           ("B", ⟨"wB", ⟨"stable", "new", none, none, []⟩, false⟩)]
          [("A", ["t1"])] [("A", [("B", [some "t1", none])])]
          [⟨"r1", [("A", some "A"), ("B", some "B")]⟩]) "A").1.rooms,
        dlookup r.clients "A" = none) := by
  have h := noMeeting_removeClient_teardown (NoMeeting.Srv.mk
      [("A", ⟨"wA", ⟨"stable", "connected", none, none, []⟩, true⟩),
       ("B", ⟨"wB", ⟨"stable", "new", none, none, []⟩, false⟩)]
      [("A", ["t1"])] [("A", [("B", [some "t1", none])])]
      [⟨"r1", [("A", some "A"), ("B", some "B")]⟩]) "A"
      ⟨"wA", ⟨"stable", "connected", none, none, []⟩, true⟩ rfl
  exact ⟨(h.1 "B" [some "t1", none] ⟨"wB", ⟨"stable", "new", none, none, []⟩, false⟩
      rfl rfl (by decide) (by decide)).1, h.2.1, h.2.2.1, h.2.2.2.2⟩

theorem addLocalTrack_clientTracks (s : NoMeeting.Srv) (cid t : String) :
    (NoMeeting.addLocalTrack s cid t).clientTracks = s.clientTracks
    ∧ (NoMeeting.addLocalTrack s cid t).rooms = s.rooms := by
  rw [NoMeeting.addLocalTrack]
  split <;> simp

theorem ledgerAdd_fields (s : NoMeeting.Srv) (src dst : String) (snd : Option String) :
    (NoMeeting.ledgerAdd s src dst snd).clientTracks = s.clientTracks
    ∧ (NoMeeting.ledgerAdd s src dst snd).rooms = s.rooms
    ∧ (NoMeeting.ledgerAdd s src dst snd).clients = s.clients := by
  rw [NoMeeting.ledgerAdd]
  exact ⟨rfl, rfl, rfl⟩

theorem addLocalTrack_clients (s : NoMeeting.Srv) (cid t : String)
    (sess : NoMeeting.Sess) (hc : dlookup s.clients cid = some sess) :
    dlookup (NoMeeting.addLocalTrack s cid t).clients cid
      = some { sess with pc :=
          { sess.pc with localTracks := sess.pc.localTracks ++ [t] } } := by
  rw [NoMeeting.addLocalTrack, hc]
  exact dlookup_dinsert _ _ _

theorem attachTracks_spec (cid nId : String) (ts : List String) :
    ∀ (s : NoMeeting.Srv) (sess : NoMeeting.Sess),
      dlookup s.clients cid = some sess →
      ((NoMeeting.attachTracks s cid nId ts).clientTracks = s.clientTracks
       ∧ (NoMeeting.attachTracks s cid nId ts).rooms = s.rooms
       ∧ dlookup (NoMeeting.attachTracks s cid nId ts).clients cid
           = some { sess with pc :=
               { sess.pc with localTracks := sess.pc.localTracks ++ ts } }) := by
  induction ts with
  | nil =>
    intro s sess hc
    refine ⟨rfl, rfl, ?_⟩
    simpa using hc
  | cons t rest ih =>
    intro s sess hc
    rw [NoMeeting.attachTracks, List.foldl_cons]
    have h1 := addLocalTrack_clients s cid t sess hc
    have hstep : dlookup (NoMeeting.ledgerAdd
        (NoMeeting.addLocalTrack s cid t) nId cid (some t)).clients cid
        = some { sess with pc :=
            { sess.pc with localTracks := sess.pc.localTracks ++ [t] } } := by
      rw [(ledgerAdd_fields _ _ _ _).2.2]
      exact h1
    have hrec := ih (NoMeeting.ledgerAdd (NoMeeting.addLocalTrack s cid t) nId cid (some t))
      _ hstep
    rw [NoMeeting.attachTracks] at hrec
    refine ⟨?_, ?_, ?_⟩
    · rw [hrec.1, (ledgerAdd_fields _ _ _ _).1, (addLocalTrack_clientTracks s cid t).1]
    · rw [hrec.2.1, (ledgerAdd_fields _ _ _ _).2.1, (addLocalTrack_clientTracks s cid t).2]
    · rw [hrec.2.2]
      simp

theorem attachAll_spec (cid : String) (nbs : List (String × Option String)) :
    ∀ (s : NoMeeting.Srv) (sess : NoMeeting.Sess),
      dlookup s.clients cid = some sess →
      ((NoMeeting.attachAll s cid nbs).2
          = (NoMeeting.catchupTracks s.clientTracks cid nbs).length
       ∧ (NoMeeting.attachAll s cid nbs).1.clientTracks = s.clientTracks
       ∧ (NoMeeting.attachAll s cid nbs).1.rooms = s.rooms
       ∧ dlookup (NoMeeting.attachAll s cid nbs).1.clients cid
           = some { sess with pc := { sess.pc with
               localTracks := sess.pc.localTracks
                 ++ NoMeeting.catchupTracks s.clientTracks cid nbs } }) := by
  induction nbs with
  | nil =>
    intro s sess hc
    refine ⟨rfl, rfl, rfl, ?_⟩
    simpa [NoMeeting.catchupTracks] using hc
  | cons p rest ih =>
    intro s sess hc
    obtain ⟨nId, ref⟩ := p
    by_cases hself : nId = cid
    · rw [NoMeeting.attachAll, if_pos hself]
      have hrec := ih s sess hc
      have hskip : NoMeeting.catchupTracks s.clientTracks cid ((nId, ref) :: rest)
          = NoMeeting.catchupTracks s.clientTracks cid rest := by
        simp [NoMeeting.catchupTracks, hself]
      rw [hskip]
      exact hrec
    · rw [NoMeeting.attachAll, if_neg hself]
      simp only []
      have hts := attachTracks_spec cid nId ((dlookup s.clientTracks nId).getD []) s sess hc
      have hrec := ih (NoMeeting.attachTracks s cid nId
        ((dlookup s.clientTracks nId).getD [])) _ hts.2.2
      have hcat : NoMeeting.catchupTracks s.clientTracks cid ((nId, ref) :: rest)
          = ((dlookup s.clientTracks nId).getD [])
            ++ NoMeeting.catchupTracks s.clientTracks cid rest := by
        simp [NoMeeting.catchupTracks, hself]
      refine ⟨?_, ?_, ?_, ?_⟩
      · rw [hrec.1, hts.1, hcat]
        simp [Nat.add_comm]
      · rw [hrec.2.1, hts.1]
      · rw [hrec.2.2.1, hts.2.1]
      · rw [hrec.2.2.2, hts.1, hcat]
        simp

theorem hasTracks_iff (s : NoMeeting.Srv) (cid : String) :
    ∀ nbs, NoMeeting.hasTracks s cid nbs = true
      ↔ NoMeeting.catchupTracks s.clientTracks cid nbs ≠ [] := by
  intro nbs
  induction nbs with
  | nil => simp [NoMeeting.hasTracks, NoMeeting.catchupTracks]
  | cons p rest ih =>
    obtain ⟨nId, ref⟩ := p
    by_cases hself : nId = cid
    · simp only [NoMeeting.hasTracks, List.any_cons] at *
      simp [NoMeeting.catchupTracks, hself, ih]
    · simp only [NoMeeting.hasTracks, List.any_cons] at *
      by_cases ht : (dlookup s.clientTracks nId).getD [] = []
      · simp [NoMeeting.catchupTracks, hself, ht, ih]
      · simp [NoMeeting.catchupTracks, hself, ht]

theorem subscribe_spec (s : NoMeeting.Srv) (cid : String) (sess : NoMeeting.Sess)
    (hc : dlookup s.clients cid = some sess) :
    (NoMeeting.subscribeExistingTracks s cid).2
      = (if NoMeeting.catchupTracks s.clientTracks cid
            (NoMeeting.getNeighbors s.rooms cid) = [] then ([] : List Ev)
         else [Ev.send sess.ws (JMsg.offerMsg cid (SDP.offerOf (sess.pc.localTracks
           ++ NoMeeting.catchupTracks s.clientTracks cid
              (NoMeeting.getNeighbors s.rooms cid))))]) := by
  rw [NoMeeting.subscribeExistingTracks, hc]
  simp only []
  have ha := attachAll_spec cid (NoMeeting.getNeighbors s.rooms cid) s sess hc
  by_cases hcat : NoMeeting.catchupTracks s.clientTracks cid
      (NoMeeting.getNeighbors s.rooms cid) = []
  · rw [if_neg (by rw [ha.1, hcat]; simp), if_pos hcat]
  · rw [if_pos (by rw [ha.1]; exact List.length_pos.mpr hcat), ha.2.2.2, if_neg hcat]

theorem handleJoin_spec (s : NoMeeting.Srv) (ws cid roomName : String)
    (sess : NoMeeting.Sess) (hc : dlookup s.clients cid = some sess)
    (hr : ∃ r ∈ s.rooms, r.name = roomName) :
    NoMeeting.handleJoin s ws cid roomName
      = (NoMeeting.setJoined (NoMeeting.subscribeExistingTracks
            { s with rooms := (NoMeeting.join s.rooms cid roomName (some cid)).1 } cid).1 cid,
         Ev.send ws (JMsg.joinSuccess (NoMeeting.hasTracks
            { s with rooms := (NoMeeting.join s.rooms cid roomName (some cid)).1 } cid
            (NoMeeting.getNeighbors (NoMeeting.join s.rooms cid roomName (some cid)).1 cid)))
           :: (NoMeeting.subscribeExistingTracks
            { s with rooms := (NoMeeting.join s.rooms cid roomName (some cid)).1 } cid).2
           ++ [Ev.markJoined cid],
         false) := by
  have hj := (join_success_mem cid roomName (some cid) s.rooms hr).1
  rw [NoMeeting.handleJoin]
  simp only [NoMeeting.getClientById, hc, Option.isSome_some, if_true]
  rw [if_pos hj]

/-- C5: for a successful join of a registered client, the `join_success`
acknowledgment carries `server_will_offer`, true iff the catch-up run then
sends an offer; when at least one roommate track is attached exactly one
offer is sent, carrying all attached tracks on top of the session's existing
senders, and with zero attached tracks no offer is sent. -/
theorem noMeeting_join_offer_flag (s : NoMeeting.Srv) (ws cid roomName : String)
    (sess : NoMeeting.Sess) (hc : dlookup s.clients cid = some sess)
    (hr : ∃ r ∈ s.rooms, r.name = roomName) :
    ∃ flag,
      (NoMeeting.handleJoin s ws cid roomName).2.1
        = Ev.send ws (JMsg.joinSuccess flag)
          :: (if flag then
                [Ev.send sess.ws (JMsg.offerMsg cid (SDP.offerOf (sess.pc.localTracks
                  ++ NoMeeting.catchupTracks s.clientTracks cid
                     (NoMeeting.getNeighbors
                       (NoMeeting.join s.rooms cid roomName (some cid)).1 cid))))]
              else [])
            ++ [Ev.markJoined cid]
      ∧ (flag = true ↔ NoMeeting.catchupTracks s.clientTracks cid
            (NoMeeting.getNeighbors
              (NoMeeting.join s.rooms cid roomName (some cid)).1 cid) ≠ [])
      ∧ ((NoMeeting.handleJoin s ws cid roomName).2.1.countP isOfferEv
          = if flag then 1 else 0) := by
  have hspec := handleJoin_spec s ws cid roomName sess hc hr
  have hc1 : dlookup ({ s with
      rooms := (NoMeeting.join s.rooms cid roomName (some cid)).1 } :
        NoMeeting.Srv).clients cid = some sess := hc
  have hsub := subscribe_spec _ cid sess hc1
  simp only [] at hsub
  have hflag := hasTracks_iff { s with
      rooms := (NoMeeting.join s.rooms cid roomName (some cid)).1 } cid
    (NoMeeting.getNeighbors (NoMeeting.join s.rooms cid roomName (some cid)).1 cid)
  simp only [] at hflag
  refine ⟨NoMeeting.hasTracks { s with
      rooms := (NoMeeting.join s.rooms cid roomName (some cid)).1 } cid
    (NoMeeting.getNeighbors (NoMeeting.join s.rooms cid roomName (some cid)).1 cid),
    ?_, hflag, ?_⟩
  · rw [hspec]
    simp only []
    rw [hsub]
    by_cases hcat : NoMeeting.catchupTracks s.clientTracks cid
        (NoMeeting.getNeighbors (NoMeeting.join s.rooms cid roomName (some cid)).1 cid) = []
    · have hf : NoMeeting.hasTracks { s with
          rooms := (NoMeeting.join s.rooms cid roomName (some cid)).1 } cid
        (NoMeeting.getNeighbors (NoMeeting.join s.rooms cid roomName (some cid)).1 cid)
          = false := by
        rcases hb : NoMeeting.hasTracks { s with
            rooms := (NoMeeting.join s.rooms cid roomName (some cid)).1 } cid
          (NoMeeting.getNeighbors (NoMeeting.join s.rooms cid roomName (some cid)).1 cid) with _ | _
        · rfl
        · exact absurd hcat (hflag.mp hb)
      rw [hf, if_pos hcat]
      simp
    · have hf := hflag.mpr hcat
      rw [hf, if_neg hcat]
      simp
  · rw [hspec]
    simp only []
    rw [hsub]
    by_cases hcat : NoMeeting.catchupTracks s.clientTracks cid
        (NoMeeting.getNeighbors (NoMeeting.join s.rooms cid roomName (some cid)).1 cid) = []
    · have hf : NoMeeting.hasTracks { s with
          rooms := (NoMeeting.join s.rooms cid roomName (some cid)).1 } cid
        (NoMeeting.getNeighbors (NoMeeting.join s.rooms cid roomName (some cid)).1 cid)
          = false := by
        rcases hb : NoMeeting.hasTracks { s with
            rooms := (NoMeeting.join s.rooms cid roomName (some cid)).1 } cid
          (NoMeeting.getNeighbors (NoMeeting.join s.rooms cid roomName (some cid)).1 cid) with _ | _
        · rfl
        · exact absurd hcat (hflag.mp hb)
      rw [hf, if_pos hcat]
      simp [isOfferEv]
    · have hf := hflag.mpr hcat
      rw [hf, if_neg hcat]
      simp [isOfferEv]

/-- C6: in the processing of a successful join of a registered client, the
`join_success` send is the first emitted event — strictly before any offer
triggered by that join's catch-up run, whose events `ce` it precedes — and
the peer is marked joined only at the very end, after the catch-up run. -/
theorem noMeeting_join_ordering (s : NoMeeting.Srv) (ws cid roomName : String)
    (sess : NoMeeting.Sess) (hc : dlookup s.clients cid = some sess)
    (hr : ∃ r ∈ s.rooms, r.name = roomName) :
    ∃ flag ce,
      (NoMeeting.handleJoin s ws cid roomName).2.1
        = Ev.send ws (JMsg.joinSuccess flag) :: (ce ++ [Ev.markJoined cid])
      ∧ ∀ e ∈ (NoMeeting.handleJoin s ws cid roomName).2.1,
          isOfferEv e = true → e ∈ ce := by
  have hspec := handleJoin_spec s ws cid roomName sess hc hr
  refine ⟨NoMeeting.hasTracks { s with
      rooms := (NoMeeting.join s.rooms cid roomName (some cid)).1 } cid
      (NoMeeting.getNeighbors (NoMeeting.join s.rooms cid roomName (some cid)).1 cid),
    (NoMeeting.subscribeExistingTracks { s with
      rooms := (NoMeeting.join s.rooms cid roomName (some cid)).1 } cid).2, ?_, ?_⟩
  · rw [hspec]
    rfl
  · intro e he hoff
    rw [hspec] at he
    simp only [List.mem_cons, List.mem_append, List.mem_singleton,
      List.not_mem_nil, or_false] at he
    rcases he with (he | he) | he
    · rw [he] at hoff
      simp [isOfferEv] at hoff
    · exact he
    · rw [he] at hoff
      simp [isOfferEv] at hoff

/-- C5 (witness): "A" has tracks t1, t2 in room "r1"; registered "B" joins —
the flag is true, exactly one offer carrying both tracks is sent. -/
theorem noMeeting_join_offer_flag_witness :
    ∃ flag,
      (NoMeeting.handleJoin (NoMeeting.Srv.mk
          [("A", ⟨"wA", ⟨"stable", "new", none, none, []⟩, true⟩),
           ("B", ⟨"wB", ⟨"stable", "new", none, none, []⟩, false⟩)]
          [("A", ["t1", "t2"])] [] [⟨"r1", [("A", some "A")]⟩]) "wB" "B" "r1").2.1
        = Ev.send "wB" (JMsg.joinSuccess flag)
          :: (if flag then
                [Ev.send "wB" (JMsg.offerMsg "B" (SDP.offerOf
                  ([] ++ NoMeeting.catchupTracks [("A", ["t1", "t2"])] "B"
                    (NoMeeting.getNeighbors
                      (NoMeeting.join [⟨"r1", [("A", some "A")]⟩] "B" "r1" (some "B")).1
                      "B"))))]
              else [])
            ++ [Ev.markJoined "B"]
      ∧ (flag = true ↔ NoMeeting.catchupTracks [("A", ["t1", "t2"])] "B"
            (NoMeeting.getNeighbors
              (NoMeeting.join [⟨"r1", [("A", some "A")]⟩] "B" "r1" (some "B")).1 "B") ≠ [])
      ∧ ((NoMeeting.handleJoin (NoMeeting.Srv.mk
          [("A", ⟨"wA", ⟨"stable", "new", none, none, []⟩, true⟩),
           ("B", ⟨"wB", ⟨"stable", "new", none, none, []⟩, false⟩)]
          [("A", ["t1", "t2"])] [] [⟨"r1", [("A", some "A")]⟩]) "wB" "B" "r1").2.1.countP
            isOfferEv
          = if flag then 1 else 0) :=
  noMeeting_join_offer_flag _ "wB" "B" "r1"
    ⟨"wB", ⟨"stable", "new", none, none, []⟩, false⟩ rfl
    ⟨⟨"r1", [("A", some "A")]⟩, by simp, rfl⟩

/-- C6 (witness): same concrete join — `join_success` first, the offers all
inside the catch-up segment, the joined mark last. -/
theorem noMeeting_join_ordering_witness :
    ∃ flag ce,
      (NoMeeting.handleJoin (NoMeeting.Srv.mk
          [("A", ⟨"wA", ⟨"stable", "new", none, none, []⟩, true⟩),
           ("B", ⟨"wB", ⟨"stable", "new", none, none, []⟩, false⟩)]
          [("A", ["t1", "t2"])] [] [⟨"r1", [("A", some "A")]⟩]) "wB" "B" "r1").2.1
        = Ev.send "wB" (JMsg.joinSuccess flag) :: (ce ++ [Ev.markJoined "B"])
      ∧ ∀ e ∈ (NoMeeting.handleJoin (NoMeeting.Srv.mk
          [("A", ⟨"wA", ⟨"stable", "new", none, none, []⟩, true⟩),
           ("B", ⟨"wB", ⟨"stable", "new", none, none, []⟩, false⟩)]
          [("A", ["t1", "t2"])] [] [⟨"r1", [("A", some "A")]⟩]) "wB" "B" "r1").2.1,
          isOfferEv e = true → e ∈ ce :=
  noMeeting_join_ordering _ "wB" "B" "r1"
    ⟨"wB", ⟨"stable", "new", none, none, []⟩, false⟩ rfl
    ⟨⟨"r1", [("A", some "A")]⟩, by simp, rfl⟩
